import Mathlib

/-!
Verification development for the wb-intake capture core:
the VIN normalization/validation engine (shared VIN utilities module)
and the capture quality gate (src/lib/image-utils.ts).

Strings are modelled as lists of characters; the ASCII fragment of the
JavaScript semantics (toUpperCase, \s, \b, character classes) is embedded
directly, which is faithful for the inputs this module processes.
-/

namespace WbIntake

/-! ## Character classes used by the VIN regular expressions -/

/-- JavaScript word character class \w restricted to ASCII: [A-Za-z0-9_]. -/
def isWordChar (c : Char) : Bool :=
  ('A' ≤ c && c ≤ 'Z') || ('a' ≤ c && c ≤ 'z') || ('0' ≤ c && c ≤ '9') || c = '_'

/-- JavaScript whitespace class \s (ASCII part). -/
def isJsSpace (c : Char) : Bool :=
  c = ' ' || c = '\t' || c = '\n' || c = '\r' || c = '\x0b' || c = '\x0c'

/-- The optional separator punctuation class [:\-#] of the label patterns. -/
def isPunctSep (c : Char) : Bool := c = ':' || c = '-' || c = '#'

/-- The capture class [A-Z0-9] of the label patterns. -/
def isUpperAlnum (c : Char) : Bool := ('A' ≤ c && c ≤ 'Z') || ('0' ≤ c && c ≤ '9')

/-- ASCII uppercasing, as String.prototype.toUpperCase on the inputs in scope. -/
def jsToUpper (s : List Char) : List Char := s.map Char.toUpper

/-! ## The label-anchored extraction patterns

LABEL_PATTERN_STRICT = (?:\bVIN\b|\bV\/N\b|\bVN\b|\bCHASSIS\b|\bCHAS\b|\bNO\b)\s*[:\-#]?\s{2,}([A-Z0-9]{5,})
LABEL_PATTERN_LOOSE  = the same with \s* in place of \s{2,}.

The matcher below is a specialized embedding of the backtracking search for
these two patterns: scan start positions left to right; at each position the
marker alternatives are tried in order (at most one can match, thanks to the
word boundaries); the quantifier structure of the tail is simple enough that
maximal-munch with the punctuation option resolved by lookahead is equivalent
to full backtracking (shrinking a whitespace run can only put a whitespace or
punctuation character under the [A-Z0-9] capture, which fails). -/

/-- Consume a literal, returning the rest of the input on success. -/
def stripLit : List Char → List Char → Option (List Char)
  | [], s => some s
  | _ :: _, [] => none
  | m :: ms, c :: cs => if c = m then stripLit ms cs else none

/-- Word boundary holds before the (word-initial) marker: previous char absent
or not a word character. -/
def prevNonWord : Option Char → Bool
  | none => true
  | some c => !isWordChar c

/-- Word boundary holds after the (word-final) marker: next char absent or not
a word character. -/
def nextNonWord : List Char → Bool
  | [] => true
  | c :: _ => !isWordChar c

/-- The marker alternatives, in the order they appear in the pattern. -/
def markers : List (List Char) :=
  ["VIN".data, "V/N".data, "VN".data, "CHASSIS".data, "CHAS".data, "NO".data]

/-- Try each marker at the current position; on success return its length and
the remaining input (the trailing word boundary checked). -/
def tryMarkers : List (List Char) → List Char → Option (Nat × List Char)
  | [], _ => none
  | m :: ms, s =>
    match stripLit m s with
    | some rest => if nextNonWord rest then some (m.length, rest) else tryMarkers ms s
    | none => tryMarkers ms s

/-- Split off the maximal run of characters satisfying p. -/
def takeRun (p : Char → Bool) : List Char → List Char × List Char
  | [] => ([], [])
  | c :: cs =>
    if p c then
      let r := takeRun p cs
      (c :: r.1, r.2)
    else ([], c :: cs)

/-- A successful label match: the marker length, the length of the separator
span (whitespace and optional punctuation between marker and token), and the
captured token.  The full match length is markerLen + sepLen + token.length. -/
structure LabelMatch where
  markerLen : Nat
  sepLen : Nat
  token : List Char
  deriving DecidableEq, Repr

/-- Match the tail \s*[:\-#]?\s{2,}([A-Z0-9]{5,}) (strict) or
\s*[:\-#]?\s*([A-Z0-9]{5,}) (loose) at the current position. -/
def matchTail (strict : Bool) (s : List Char) : Option (Nat × List Char) :=
  let ws1 := takeRun isJsSpace s
  match ws1.2 with
  | [] => none
  | c :: r2 =>
    if isPunctSep c then
      let ws2 := takeRun isJsSpace r2
      if strict && ws2.1.length < 2 then none
      else
        let tok := takeRun isUpperAlnum ws2.2
        if 5 ≤ tok.1.length then some (ws1.1.length + 1 + ws2.1.length, tok.1) else none
    else
      if strict && ws1.1.length < 2 then none
      else
        let tok := takeRun isUpperAlnum (c :: r2)
        if 5 ≤ tok.1.length then some (ws1.1.length, tok.1) else none

/-- Try the whole pattern at the current position. -/
def matchAt (strict : Bool) (prev : Option Char) (s : List Char) : Option LabelMatch :=
  if prevNonWord prev then
    match tryMarkers markers s with
    | some mr =>
      match matchTail strict mr.2 with
      | some st => some ⟨mr.1, st.1, st.2⟩
      | none => none
    | none => none
  else none

/-- Leftmost match of the pattern, as String.prototype.match. -/
def scanPattern (strict : Bool) : Option Char → List Char → Option LabelMatch
  | _, [] => none
  | prev, c :: cs =>
    match matchAt strict prev (c :: cs) with
    | some m => some m
    | none => scanPattern strict (some c) cs

/-! ## normalizeVin -/

/-- The final cleanup of normalizeVin: .replace([^A-Z0-9] -> empty),
.replace([IOQ] -> empty), then truncate to 17 characters. -/
def cleanupVin (s : List Char) : List Char :=
  (((s.filter isUpperAlnum).filter fun c => !(c = 'I' || c = 'O' || c = 'Q'))).take 17

/-- normalizeVin on character lists (source: normalizeVin in the VIN module). -/
def normalizeVinList (raw : List Char) : List Char :=
  let upper := jsToUpper raw
  let cand : List Char :=
    match scanPattern true none upper with
    | some m => m.token
    | none =>
      match scanPattern false none upper with
      | some m =>
        if 3 ≤ (m.markerLen + m.sepLen + m.token.length) - m.token.length then m.token
        else upper
      | none => upper
  cleanupVin cand

/-- normalizeVin (source: normalizeVin in the VIN module). -/
def normalizeVin (raw : String) : String := ⟨normalizeVinList raw.data⟩

/-- The loose-path acceptance rule as the specification words it (for the
refinement comparison of the claim about the loose pattern): the captured
token is used only if the separator span is at least 3 characters longer than
the captured token; otherwise the whole input is the candidate.  This is the
claimed behaviour, not the source's. -/
def normalizeVinClaimedList (raw : List Char) : List Char :=
  let upper := jsToUpper raw
  let cand : List Char :=
    match scanPattern true none upper with
    | some m => m.token
    | none =>
      match scanPattern false none upper with
      | some m => if m.token.length + 3 ≤ m.sepLen then m.token else upper
      | none => upper
  cleanupVin cand

/-! ## isValidVin -/

/-- Character class of /^[A-HJ-NPR-Z0-9]{17}$/i, per character (case-insensitive
via uppercasing). -/
def vinCharOk (c : Char) : Bool :=
  let u := c.toUpper
  ('A' ≤ u && u ≤ 'H') || ('J' ≤ u && u ≤ 'N') || u = 'P' ||
    ('R' ≤ u && u ≤ 'Z') || ('0' ≤ u && u ≤ '9')

/-- The charset test /^[A-HJ-NPR-Z0-9]{17}$/i.test(normalized). -/
def charsetOk (s : List Char) : Bool := s.length = 17 && s.all vinCharOk

/-- Length of the maximal run of characters satisfying p at the head. -/
def countLeading (p : Char → Bool) : List Char → Nat
  | [] => 0
  | c :: cs => if p c then countLeading p cs + 1 else 0

/-- Does the list contain a run of at least k consecutive characters all
satisfying p (the test of /[...]{k,}/)? -/
def hasRunFrom (p : Char → Bool) (k : Nat) : List Char → Bool
  | [] => false
  | c :: cs => (k ≤ countLeading p (c :: cs)) || hasRunFrom p k cs

/-- Line terminators, which the regex metacharacter . does not match. -/
def isLineTerm (c : Char) : Bool :=
  c = '\n' || c = '\r' || c = ' ' || c = ' '

/-- The test of /(.)\1{5,}/: some non-line-terminator character occurs 6 or
more times consecutively. -/
def hasRepeatedRun : List Char → Bool
  | [] => false
  | c :: cs => (!isLineTerm c && 5 ≤ countLeading (fun d => d = c) cs) || hasRepeatedRun cs

def isDigitChar (c : Char) : Bool := '0' ≤ c && c ≤ '9'

def isUpperLetter (c : Char) : Bool := 'A' ≤ c && c ≤ 'Z'

/-- hasObviousOcrErrors (source: the suspiciousPatterns test). -/
def hasObviousOcrErrors (s : List Char) : Bool :=
  hasRunFrom (fun c => c = 'I' || c = 'L' || c = '1') 3 s ||
  hasRunFrom (fun c => c = 'O' || c = '0') 4 s ||
  (s.length = 17 && s.all isDigitChar) ||
  (s.length = 17 && s.all isUpperLetter) ||
  hasRepeatedRun s

/-- The VIN transliteration table (the values record); keys absent map to 0,
as (values[ch] || 0). -/
def vinCharValue : Char → Nat
  | '0' => 0 | '1' => 1 | '2' => 2 | '3' => 3 | '4' => 4
  | '5' => 5 | '6' => 6 | '7' => 7 | '8' => 8 | '9' => 9
  | 'A' => 1 | 'B' => 2 | 'C' => 3 | 'D' => 4 | 'E' => 5
  | 'F' => 6 | 'G' => 7 | 'H' => 8
  | 'J' => 1 | 'K' => 2 | 'L' => 3 | 'M' => 4 | 'N' => 5
  | 'P' => 7 | 'R' => 9 | 'S' => 2
  | 'T' => 3 | 'U' => 4 | 'V' => 5 | 'W' => 6 | 'X' => 7
  | 'Y' => 8 | 'Z' => 9
  | _ => 0

/-- The ISO 3779 position weights. -/
def vinWeights : List Nat := [8, 7, 6, 5, 4, 3, 2, 10, 0, 9, 8, 7, 6, 5, 4, 3, 2]

/-- The weighted-sum loop: for i in 0..16, skipping i = 8, accumulate
value(char i) * weight i. -/
def weightedSumAux : Nat → List Char → List Nat → Nat
  | _, [], _ => 0
  | _, _ :: _, [] => 0
  | i, c :: cs, w :: ws =>
    (if i = 8 then 0 else vinCharValue c * w) + weightedSumAux (i + 1) cs ws

def vinWeightedSum (s : List Char) : Nat := weightedSumAux 0 s vinWeights

/-- expectedCheck: checkDigit = sum % 11; 'X' when 10, else the decimal digit
character. -/
def expectedCheckChar (s : List Char) : Char :=
  let d := vinWeightedSum s % 11
  if d = 10 then 'X' else Char.ofNat (48 + d)

/-- The character at index 8 (vin[8]); the default is irrelevant since the
accessors run only on 17-character strings. -/
def charAt8 (s : List Char) : Char := s.getD 8 ' '

/-- looksLikeSouthAfricanVin: first character A, B or V. -/
def looksLikeSouthAfricanVin (s : List Char) : Bool :=
  match s with
  | [] => false
  | c :: _ => c = 'A' || c = 'B' || c = 'V'

/-- The toleranceMap record: confusable alternatives per expected character. -/
def toleranceAlts : Char → Option (List Char)
  | '0' => some ['O'] | 'O' => some ['0']
  | '1' => some ['I', 'L'] | 'I' => some ['1'] | 'L' => some ['1']
  | '5' => some ['S'] | 'S' => some ['5']
  | '8' => some ['B'] | 'B' => some ['8']
  | _ => none

/-- hasSAVinTolerance (source: the SA tolerance check). -/
def hasSAVinTolerance (s : List Char) (expected : Char) : Bool :=
  if !looksLikeSouthAfricanVin s then false
  else
    match toleranceAlts expected with
    | some alts => alts.contains (charAt8 s)
    | none => false

/-- isValidVin (source: isValidVin in the VIN module). -/
def isValidVin (vin : String) : Bool :=
  let n := normalizeVinList vin.data
  if n.length ≠ 17 then false
  else if !charsetOk n then false
  else if hasObviousOcrErrors n then false
  else if charAt8 n ≠ expectedCheckChar n then hasSAVinTolerance n (expectedCheckChar n)
  else true

/-! ## Capture quality gate (src/src/lib/image-utils.ts)

Pixel buffers are RGBA byte lists (ImageData.data); numeric work is modelled
over the rationals (exact luminance coefficients 0.2126/0.7152/0.0722); the
one square root (Math.sqrt in the contrast computation) is modelled with
Real.sqrt. -/

/-- A decoded pixel buffer: ImageData with width, height and RGBA data. -/
structure ImageDataM where
  width : Nat
  height : Nat
  data : List Nat
  deriving DecidableEq, Repr

/-- The luminance of the pixel at (x, y): 0.2126 R + 0.7152 G + 0.0722 B,
reading the RGBA buffer at index (y * width + x) * 4. -/
def lumAtData (data : List Nat) (width x y : Nat) : ℚ :=
  let idx := (y * width + x) * 4
  (2126 * (data.getD idx 0 : ℚ) + 7152 * (data.getD (idx + 1) 0 : ℚ) +
    722 * (data.getD (idx + 2) 0 : ℚ)) / 10000

def lumAt (d : ImageDataM) (x y : Nat) : ℚ := lumAtData d.data d.width x y

/-- The sampling stride: max(1, floor(sqrt(width * height / 120000))). -/
def metricStep (d : ImageDataM) : Nat := max 1 (Nat.sqrt (d.width * d.height / 120000))

/-- The coordinates 0, step, 2 step, ... below len visited by a strided loop. -/
def strideCoords (len step : Nat) : List Nat :=
  (List.range ((len + step - 1) / step)).map (fun i => i * step)

/-- The sampled (x, y) grid of computeMetrics. -/
def samplePairs (d : ImageDataM) : List (Nat × Nat) :=
  (strideCoords d.height (metricStep d)).flatMap fun y =>
    (strideCoords d.width (metricStep d)).map fun x => (x, y)

/-- brightness: the mean sampled luminance (0 when there are no samples). -/
def brightnessOf (d : ImageDataM) : ℚ :=
  let pts := samplePairs d
  if pts.length = 0 then 0
  else (pts.map fun p => lumAt d p.1 p.2).sum / (pts.length : ℚ)

/-- variance: E[lum^2] - E[lum]^2 over the samples (0 when there are none). -/
def varianceOf (d : ImageDataM) : ℚ :=
  let pts := samplePairs d
  if pts.length = 0 then 0
  else (pts.map fun p => lumAt d p.1 p.2 * lumAt d p.1 p.2).sum / (pts.length : ℚ)
        - brightnessOf d * brightnessOf d

/-- contrast: sqrt of the variance when positive, else 0. -/
noncomputable def contrastOf (d : ImageDataM) : ℝ :=
  if 0 < varianceOf d then Real.sqrt (varianceOf d) else 0

/-- The absolute luminance differences to the right/below neighbours at stride
distance, accumulated by the sampling loop of computeMetrics. -/
def gradientTerms (d : ImageDataM) : List ℚ :=
  (samplePairs d).flatMap fun p =>
    (if p.1 + metricStep d < d.width then
        [|lumAt d p.1 p.2 - lumAt d (p.1 + metricStep d) p.2|] else [])
    ++ (if p.2 + metricStep d < d.height then
        [|lumAt d p.1 p.2 - lumAt d p.1 (p.2 + metricStep d)|] else [])

/-- sharpness: the mean absolute neighbour difference (0 with no samples). -/
def sharpnessOf (d : ImageDataM) : ℚ :=
  let g := gradientTerms d
  if g.length = 0 then 0 else g.sum / (g.length : ℚ)

/-- Region bound: max(0, floor(extent * ratio)) of computeRegionStats. -/
def regionLo (extent : Nat) (ratio : ℚ) : Nat := (max 0 ⌊(extent : ℚ) * ratio⌋).toNat

/-- Region bound: min(extent, ceil(extent * ratio)) of computeRegionStats. -/
def regionHi (extent : Nat) (ratio : ℚ) : Nat := (min (extent : Int) ⌈(extent : ℚ) * ratio⌉).toNat

/-- The (x, y) pairs visited by the region double loop. -/
def regionCoords (x0 x1 y0 y1 : Nat) : List (Nat × Nat) :=
  (List.range (y1 - y0)).flatMap fun j =>
    (List.range (x1 - x0)).map fun i => (x0 + i, y0 + j)

/-- The luminances computeRegionStats accumulates. -/
def regionLums (data : List Nat) (w h : Nat) (x0R x1R y0R y1R : ℚ) : List ℚ :=
  (regionCoords (regionLo w x0R) (regionHi w x1R) (regionLo h y0R) (regionHi h y1R)).map
    fun p => lumAtData data w p.1 p.2

/-- computeRegionStats brightness: the mean luminance over the region (0 when
the region is empty). -/
def regionBrightness (data : List Nat) (w h : Nat) (x0R x1R y0R y1R : ℚ) : ℚ :=
  let l := regionLums data w h x0R x1R y0R y1R
  if l.length = 0 then 0 else l.sum / (l.length : ℚ)

/-- computeRegionStats variance: E[lum^2] - E[lum]^2 over the region. -/
def regionVariance (data : List Nat) (w h : Nat) (x0R x1R y0R y1R : ℚ) : ℚ :=
  let l := regionLums data w h x0R x1R y0R y1R
  if l.length = 0 then 0
  else (l.map fun q => q * q).sum / (l.length : ℚ)
        - regionBrightness data w h x0R x1R y0R y1R * regionBrightness data w h x0R x1R y0R y1R

/-- computeRegionStats contrast: sqrt of the variance when positive, else 0. -/
noncomputable def regionContrast (data : List Nat) (w h : Nat) (x0R x1R y0R y1R : ℚ) : ℝ :=
  if 0 < regionVariance data w h x0R x1R y0R y1R then
    Real.sqrt (regionVariance data w h x0R x1R y0R y1R)
  else 0

/-! ## Thresholds and the quality gate -/

inductive Target
  | vin
  | odometer
  deriving DecidableEq, Repr

structure Thresholds where
  brightnessMin : ℚ
  brightnessMax : ℚ
  contrastMin : ℚ
  sharpnessMin : ℚ
  framingScoreMin : ℚ
  deriving DecidableEq, Repr

/-- TARGET_THRESHOLDS (source: the literal per-target threshold table). -/
def TARGET_THRESHOLDS : Target → Thresholds
  | .vin => ⟨45, 215, 22, 13, 6⟩
  | .odometer => ⟨55, 205, 26, 15, 5⟩

/-- DEFAULT_MARGIN (source: the per-target default margin ratios). -/
def DEFAULT_MARGIN : Target → ℚ
  | .vin => 12 / 100
  | .odometer => 1 / 10

/-- The target-specific framing message. -/
def framingMsg (t : Target) : String :=
  if t = .vin then "VIN not centered in framing guide" else "Odometer cluster not centered"

/-- The issue list assembled by analyzeAndCropImage from the post-crop metrics
and the pre-crop framing score: brightness (dark / overexposed, mutually
exclusive), then contrast, then sharpness, then framing, each pushed when its
threshold test fires. -/
def qualityIssues (t : Target) (brightness contrast sharpness framingScore : ℚ) :
    List String :=
  (if brightness < (TARGET_THRESHOLDS t).brightnessMin then ["Image too dark"]
   else if brightness > (TARGET_THRESHOLDS t).brightnessMax then ["Image overexposed"]
   else [])
  ++ (if contrast < (TARGET_THRESHOLDS t).contrastMin then ["Low contrast"] else [])
  ++ (if sharpness < (TARGET_THRESHOLDS t).sharpnessMin then ["Image appears blurry"] else [])
  ++ (if framingScore < (TARGET_THRESHOLDS t).framingScoreMin then [framingMsg t] else [])

/-- shouldRetake: issues.length > 0. -/
def shouldRetake (t : Target) (brightness contrast sharpness framingScore : ℚ) : Bool :=
  decide (0 < (qualityIssues t brightness contrast sharpness framingScore).length)

/-! ## cropCanvas -/

/-- A canvas: dimensions plus the RGBA backing buffer. -/
structure Canvas where
  width : Nat
  height : Nat
  data : List Nat
  deriving DecidableEq, Repr

structure CropBounds where
  x : Int
  y : Int
  width : Int
  height : Int
  deriving DecidableEq, Repr

structure CropResult where
  canvas : Canvas
  bounds : CropBounds
  applied : Bool
  deriving DecidableEq, Repr

/-- The product (w : ℚ) * r, written in a form the kernel can evaluate on
concrete rationals (shown equal to the product in qMulNat_eq below). -/
def qMulNat (w : Nat) (r : ℚ) : ℚ := mkRat ((w : Int) * r.num) r.den

/-- JavaScript Math.round: round half toward positive infinity, i.e.
⌊q + 1/2⌋, written in a kernel-evaluable form (see jsRound_eq_floor below). -/
def jsRound (q : ℚ) : Int := ⌊mkRat (2 * q.num + (q.den : Int)) (2 * q.den)⌋

/-- getImageData(x, y, w, h) on a flat RGBA buffer of row width srcWidth. -/
def extractRect (data : List Nat) (srcWidth x y w h : Nat) : List Nat :=
  (List.range h).flatMap fun row =>
    (data.drop (((y + row) * srcWidth + x) * 4)).take (w * 4)

/-- cropCanvas (source: cropCanvas in image-utils): symmetric margin crop with
the degenerate-geometry guard returning the source unchanged. -/
def cropCanvas (source : Canvas) (marginRatio : ℚ) : CropResult :=
  if marginRatio ≤ 0 then
    ⟨source, ⟨0, 0, source.width, source.height⟩, false⟩
  else
    let marginX : Int := jsRound (qMulNat source.width marginRatio)
    let marginY : Int := jsRound (qMulNat source.height marginRatio)
    let cropWidth : Int := (source.width : Int) - marginX * 2
    let cropHeight : Int := (source.height : Int) - marginY * 2
    if cropWidth ≤ 0 ∨ cropHeight ≤ 0 then
      ⟨source, ⟨0, 0, source.width, source.height⟩, false⟩
    else
      ⟨⟨cropWidth.toNat, cropHeight.toNat,
          extractRect source.data source.width marginX.toNat marginY.toNat
            cropWidth.toNat cropHeight.toNat⟩,
        ⟨marginX, marginY, cropWidth, cropHeight⟩,
        decide (0 < marginX ∨ 0 < marginY)⟩

/-- The marginRatio clamp of analyzeAndCropImage: user-provided ratios are
clamped to [0, 0.25], absent ones default per target. -/
def effectiveMarginRatio (t : Target) (provided : Option ℚ) : ℚ :=
  match provided with
  | some r => min (max r 0) (1 / 4)
  | none => DEFAULT_MARGIN t

/-! ## Bridging lemmas for the kernel-evaluable arithmetic forms -/

theorem qMulNat_eq (w : Nat) (r : ℚ) : qMulNat w r = (w : ℚ) * r := by
  unfold qMulNat
  rw [Rat.mkRat_eq_div]
  push_cast
  rw [mul_div_assoc, Rat.num_div_den]

theorem jsRound_eq_floor (q : ℚ) : jsRound q = ⌊q + 1 / 2⌋ := by
  unfold jsRound
  congr 1
  rw [Rat.mkRat_eq_div]
  have hd : ((q.den : ℚ)) ≠ 0 := by
    exact_mod_cast q.den_nz
  conv_rhs => rw [← Rat.num_div_den q]
  push_cast
  field_simp
  ring

/-! ## The normalizer always emits a clean candidate -/

theorem cleanupVin_length (s : List Char) : (cleanupVin s).length ≤ 17 := by
  unfold cleanupVin
  simp [List.length_take]

theorem cleanupVin_mem (s : List Char) (c : Char) (hc : c ∈ cleanupVin s) :
    (('A' ≤ c ∧ c ≤ 'Z') ∨ ('0' ≤ c ∧ c ≤ '9')) ∧ c ≠ 'I' ∧ c ≠ 'O' ∧ c ≠ 'Q' := by
  unfold cleanupVin at hc
  have hc2 := (List.take_sublist 17 _).subset hc
  rw [List.mem_filter] at hc2
  obtain ⟨hc3, hq⟩ := hc2
  rw [List.mem_filter] at hc3
  obtain ⟨-, hp⟩ := hc3
  simp only [isUpperAlnum, Bool.or_eq_true, Bool.and_eq_true, decide_eq_true_eq] at hp
  simp only [Bool.not_eq_eq_eq_not, Bool.not_true, Bool.or_eq_false_iff,
    decide_eq_false_iff_not] at hq
  exact ⟨hp, hq.1.1, hq.1.2, hq.2⟩

theorem normalizeVinList_eq_cleanup (raw : List Char) :
    ∃ cand, normalizeVinList raw = cleanupVin cand := by
  unfold normalizeVinList
  cases hs : scanPattern true none (jsToUpper raw) with
  | some m => exact ⟨m.token, by simp [hs]⟩
  | none =>
    cases hl : scanPattern false none (jsToUpper raw) with
    | none => exact ⟨jsToUpper raw, by simp [hs, hl]⟩
    | some m =>
      by_cases hcond : 3 ≤ m.markerLen + m.sepLen
      · exact ⟨m.token, by simp [hs, hl, hcond]⟩
      · exact ⟨jsToUpper raw, by simp [hs, hl, hcond]⟩

/-- Claim C4: whatever extraction path normalizeVin takes, the result is
uppercase alphanumeric with I, O, Q removed, and at most 17 characters. -/
theorem normalizeVin_invariant (raw : String) :
    (normalizeVin raw).length ≤ 17 ∧
      ∀ c ∈ (normalizeVin raw).data,
        (('A' ≤ c ∧ c ≤ 'Z') ∨ ('0' ≤ c ∧ c ≤ '9')) ∧ c ≠ 'I' ∧ c ≠ 'O' ∧ c ≠ 'Q' := by
  obtain ⟨cand, hcand⟩ := normalizeVinList_eq_cleanup raw.data
  constructor
  · show (normalizeVinList raw.data).length ≤ 17
    rw [hcand]
    exact cleanupVin_length cand
  · intro c hcmem
    have : c ∈ cleanupVin cand := by
      rw [← hcand]
      exact hcmem
    exact cleanupVin_mem cand c this

/-- Any input whose normalized form triggers an OCR-garbage pattern is
rejected (shared helper). -/
theorem isValidVin_false_of_garbage (s : String)
    (h : hasObviousOcrErrors (normalizeVinList s.data) = true) : isValidVin s = false := by
  simp [isValidVin, h]

/-- Claim C3: any input whose normalized form triggers an OCR-garbage pattern
is rejected by isValidVin, independently of the checksum arithmetic. -/
theorem isValidVin_of_garbage (s : String)
    (h : hasObviousOcrErrors (normalizeVinList s.data) = true) : isValidVin s = false := by
  simp [isValidVin, h]

/-- Witness for C3 at the repeated-character input of the specification. -/
theorem isValidVin_of_garbage_witness :
    hasObviousOcrErrors (normalizeVinList ("AAAAAAAAAAAAAAAAA".data)) = true ∧
      isValidVin "AAAAAAAAAAAAAAAAA" = false :=
  ⟨by decide, isValidVin_of_garbage "AAAAAAAAAAAAAAAAA" (by decide)⟩

/-- Claim C1: a normalized 17-character VIN that passes the charset and
OCR-garbage checks is accepted when its character at index 8 equals the
ISO 3779 expected check character computed from the weighted sum. -/
theorem isValidVin_of_check (v : String)
    (hnorm : normalizeVin v = v) (hlen : v.length = 17)
    (hchar : charsetOk v.data = true)
    (hocr : hasObviousOcrErrors v.data = false)
    (hck : charAt8 v.data = expectedCheckChar v.data) :
    isValidVin v = true := by
  have hnl : normalizeVinList v.data = v.data := congrArg String.data hnorm
  have hlen2 : v.data.length = 17 := hlen
  simp [isValidVin, hnl, hlen2, hchar, hocr, hck]

/-- Witness for C1 at a genuine check-digit-valid VIN. -/
theorem isValidVin_of_check_witness :
    normalizeVin "1HGCM82633A004352" = "1HGCM82633A004352" ∧
      isValidVin "1HGCM82633A004352" = true :=
  ⟨by decide,
    isValidVin_of_check "1HGCM82633A004352" (by decide) (by decide) (by decide)
      (by decide) (by decide)⟩

/-! ## The tolerance branch -/

theorem expectedCheckChar_mem (s : List Char) :
    expectedCheckChar s ∈ (['0', '1', '2', '3', '4', '5', '6', '7', '8', '9', 'X'] : List Char) := by
  unfold expectedCheckChar
  have h : vinWeightedSum s % 11 < 11 := Nat.mod_lt _ (by norm_num)
  set k := vinWeightedSum s % 11 with hk
  interval_cases k <;> decide

theorem hasSAVinTolerance_characterization (s : List Char) (e : Char)
    (he : e ∈ (['0', '1', '2', '3', '4', '5', '6', '7', '8', '9', 'X'] : List Char)) :
    hasSAVinTolerance s e = true ↔
      looksLikeSouthAfricanVin s = true ∧
        ((e = '0' ∧ charAt8 s = 'O') ∨ (e = '1' ∧ (charAt8 s = 'I' ∨ charAt8 s = 'L')) ∨
          (e = '5' ∧ charAt8 s = 'S') ∨ (e = '8' ∧ charAt8 s = 'B')) := by
  fin_cases he <;>
    cases hsa : looksLikeSouthAfricanVin s <;>
      simp +decide [hasSAVinTolerance, toleranceAlts, hsa]

theorem looksLikeSouthAfricanVin_iff (s : List Char) (h : s ≠ []) :
    looksLikeSouthAfricanVin s = true ↔
      (s.getD 0 ' ' = 'A' ∨ s.getD 0 ' ' = 'B' ∨ s.getD 0 ' ' = 'V') := by
  cases s with
  | nil => exact absurd rfl h
  | cons c cs => simp [looksLikeSouthAfricanVin, or_assoc]

theorem charAt8_mem (s : List Char) (h : 8 < s.length) : charAt8 s ∈ s := by
  unfold charAt8
  rw [List.getD_eq_getElem?_getD, List.getElem?_eq_getElem h]
  exact List.getElem_mem h

theorem vinCharOk_excludes (c : Char) (h : vinCharOk c = true) :
    c ≠ 'I' ∧ c ≠ 'O' ∧ c ≠ 'Q' := by
  refine ⟨?_, ?_, ?_⟩ <;> rintro rfl <;> revert h <;> decide

/-- An accepted VIN whose index-8 character mismatches the expected check
character must have passed every earlier gate and the SA tolerance. -/
theorem isValidVin_mismatch_elim (s : String)
    (hvalid : isValidVin s = true)
    (hne : charAt8 (normalizeVinList s.data) ≠ expectedCheckChar (normalizeVinList s.data)) :
    (normalizeVinList s.data).length = 17 ∧
      charsetOk (normalizeVinList s.data) = true ∧
      hasObviousOcrErrors (normalizeVinList s.data) = false ∧
      hasSAVinTolerance (normalizeVinList s.data)
        (expectedCheckChar (normalizeVinList s.data)) = true := by
  by_cases h1 : (normalizeVinList s.data).length = 17
  · by_cases h2 : charsetOk (normalizeVinList s.data) = true
    · by_cases h3 : hasObviousOcrErrors (normalizeVinList s.data) = true
      · rw [isValidVin_false_of_garbage s h3] at hvalid
        exact absurd hvalid (by simp)
      · have h3f : hasObviousOcrErrors (normalizeVinList s.data) = false := by
          simpa using h3
        refine ⟨h1, h2, h3f, ?_⟩
        simpa [isValidVin, h1, h2, hne, h3f] using hvalid
    · have h2f : charsetOk (normalizeVinList s.data) = false := by
        simpa using h2
      have : isValidVin s = false := by
        simp [isValidVin, h2f]
      rw [this] at hvalid
      exact absurd hvalid (by simp)
  · have : isValidVin s = false := by
      simp [isValidVin, h1]
    rw [this] at hvalid
    exact absurd hvalid (by simp)

/-- Claim C2: on a normalized 17-character VIN whose index-8 character differs
from the expected check character, acceptance forces a South-African-looking
first character (A, B or V) and one of the tolerated confusable substitutions
at the check-digit position. -/
theorem isValidVin_mismatch_tolerance (v : String)
    (hnorm : normalizeVin v = v) (hlen : v.length = 17)
    (hne : charAt8 v.data ≠ expectedCheckChar v.data)
    (hvalid : isValidVin v = true) :
    (v.data.getD 0 ' ' = 'A' ∨ v.data.getD 0 ' ' = 'B' ∨ v.data.getD 0 ' ' = 'V') ∧
      ((expectedCheckChar v.data = '0' ∧ charAt8 v.data = 'O') ∨
        (expectedCheckChar v.data = '1' ∧ (charAt8 v.data = 'I' ∨ charAt8 v.data = 'L')) ∨
        (expectedCheckChar v.data = '5' ∧ charAt8 v.data = 'S') ∨
        (expectedCheckChar v.data = '8' ∧ charAt8 v.data = 'B')) := by
  have hnl : normalizeVinList v.data = v.data := congrArg String.data hnorm
  have hne2 : charAt8 (normalizeVinList v.data) ≠ expectedCheckChar (normalizeVinList v.data) := by
    rw [hnl]
    exact hne
  obtain ⟨h17, -, -, htol⟩ := isValidVin_mismatch_elim v hvalid hne2
  rw [hnl] at h17 htol
  have hchar := (hasSAVinTolerance_characterization v.data (expectedCheckChar v.data)
    (expectedCheckChar_mem v.data)).mp htol
  have hnonempty : v.data ≠ [] := by
    intro hempty
    rw [hempty] at h17
    simp at h17
  exact ⟨(looksLikeSouthAfricanVin_iff v.data hnonempty).mp hchar.1, hchar.2⟩

/-- Witness for C2 at a constructed South-African tolerance acceptance
(expected check character 8, scanned as B). -/
theorem isValidVin_mismatch_tolerance_witness :
    isValidVin "BAB12345B6789ABED" = true ∧
      (("BAB12345B6789ABED".data.getD 0 ' ' = 'A' ∨ "BAB12345B6789ABED".data.getD 0 ' ' = 'B' ∨
          "BAB12345B6789ABED".data.getD 0 ' ' = 'V') ∧
        ((expectedCheckChar ("BAB12345B6789ABED".data) = '0' ∧
            charAt8 ("BAB12345B6789ABED".data) = 'O') ∨
          (expectedCheckChar ("BAB12345B6789ABED".data) = '1' ∧
            (charAt8 ("BAB12345B6789ABED".data) = 'I' ∨
              charAt8 ("BAB12345B6789ABED".data) = 'L')) ∨
          (expectedCheckChar ("BAB12345B6789ABED".data) = '5' ∧
            charAt8 ("BAB12345B6789ABED".data) = 'S') ∨
          (expectedCheckChar ("BAB12345B6789ABED".data) = '8' ∧
            charAt8 ("BAB12345B6789ABED".data) = 'B'))) :=
  ⟨by decide,
    isValidVin_mismatch_tolerance "BAB12345B6789ABED" (by decide) (by decide)
      (by decide) (by decide)⟩

/-- Claim C10: through the public interface the 0-for-O and 1-for-I
substitutions are unreachable (normalization removes I and O), so a tolerant
acceptance can only be the L-for-1, S-for-5 or B-for-8 substitution. -/
theorem isValidVin_tolerance_reachable (s : String)
    (hvalid : isValidVin s = true)
    (hne : charAt8 (normalizeVinList s.data) ≠ expectedCheckChar (normalizeVinList s.data)) :
    charAt8 (normalizeVinList s.data) ≠ 'O' ∧
      charAt8 (normalizeVinList s.data) ≠ 'I' ∧
      ((expectedCheckChar (normalizeVinList s.data) = '1' ∧
          charAt8 (normalizeVinList s.data) = 'L') ∨
        (expectedCheckChar (normalizeVinList s.data) = '5' ∧
          charAt8 (normalizeVinList s.data) = 'S') ∨
        (expectedCheckChar (normalizeVinList s.data) = '8' ∧
          charAt8 (normalizeVinList s.data) = 'B')) := by
  obtain ⟨h17, hcharset, -, htol⟩ := isValidVin_mismatch_elim s hvalid hne
  have h8 : 8 < (normalizeVinList s.data).length := by omega
  have hmem := charAt8_mem (normalizeVinList s.data) h8
  have hok : vinCharOk (charAt8 (normalizeVinList s.data)) = true := by
    simp [charsetOk] at hcharset
    exact hcharset.2 _ hmem
  obtain ⟨hI, hO, -⟩ := vinCharOk_excludes _ hok
  have hchar := (hasSAVinTolerance_characterization (normalizeVinList s.data)
    (expectedCheckChar (normalizeVinList s.data))
    (expectedCheckChar_mem (normalizeVinList s.data))).mp htol
  refine ⟨hO, hI, ?_⟩
  rcases hchar.2 with ⟨-, hc⟩ | ⟨he, hc⟩ | ⟨he, hc⟩ | ⟨he, hc⟩
  · exact absurd hc hO
  · rcases hc with hc | hc
    · exact absurd hc hI
    · exact Or.inl ⟨he, hc⟩
  · exact Or.inr (Or.inl ⟨he, hc⟩)
  · exact Or.inr (Or.inr ⟨he, hc⟩)

/-- Witness for C10 at a constructed tolerance acceptance through the S-for-5
substitution. -/
theorem isValidVin_tolerance_reachable_witness :
    isValidVin "ACD23456S7892DEGG" = true ∧
      (charAt8 (normalizeVinList ("ACD23456S7892DEGG".data)) ≠ 'O' ∧
        charAt8 (normalizeVinList ("ACD23456S7892DEGG".data)) ≠ 'I' ∧
        ((expectedCheckChar (normalizeVinList ("ACD23456S7892DEGG".data)) = '1' ∧
            charAt8 (normalizeVinList ("ACD23456S7892DEGG".data)) = 'L') ∨
          (expectedCheckChar (normalizeVinList ("ACD23456S7892DEGG".data)) = '5' ∧
            charAt8 (normalizeVinList ("ACD23456S7892DEGG".data)) = 'S') ∨
          (expectedCheckChar (normalizeVinList ("ACD23456S7892DEGG".data)) = '8' ∧
            charAt8 (normalizeVinList ("ACD23456S7892DEGG".data)) = 'B'))) :=
  ⟨by decide, isValidVin_tolerance_reachable "ACD23456S7892DEGG" (by decide) (by decide)⟩

/-! ## The loose-pattern acceptance condition -/

/-- Counterexample to the claimed loose-path rule: on this input the strict
pattern fails, the loose pattern matches with marker NO, a one-character
separator and a ten-character token, so the separator is nowhere near 3
characters longer than the token -- yet the source uses the captured token,
and the outcome differs from the claimed whole-input fallback. -/
theorem normalizeVin_loose_claim_counterexample :
    scanPattern true none (jsToUpper ("NO:ABCDE12345".data)) = none ∧
      scanPattern false none (jsToUpper ("NO:ABCDE12345".data)) =
        some ⟨2, 1, "ABCDE12345".data⟩ ∧
      ¬ ("ABCDE12345".data.length + 3 ≤ 1) ∧
      normalizeVin "NO:ABCDE12345" = "ABCDE12345" ∧
      normalizeVinClaimedList ("NO:ABCDE12345".data) = "NABCDE12345".data ∧
      normalizeVinList ("NO:ABCDE12345".data) ≠
        normalizeVinClaimedList ("NO:ABCDE12345".data) := by
  decide

/-- Claim C5 (amended): when the strict pattern fails and the loose pattern
matches, the captured token is used exactly when the full match is at least 3
characters longer than the captured token, i.e. when marker and separator
together span at least 3 characters; otherwise the whole input is the
candidate. -/
theorem normalizeVin_loose_condition (raw : String) (m : LabelMatch)
    (hs : scanPattern true none (jsToUpper raw.data) = none)
    (hl : scanPattern false none (jsToUpper raw.data) = some m) :
    normalizeVin raw =
      (if 3 ≤ m.markerLen + m.sepLen then (⟨cleanupVin m.token⟩ : String)
       else ⟨cleanupVin (jsToUpper raw.data)⟩) := by
  by_cases hcond : 3 ≤ m.markerLen + m.sepLen
  · simp [normalizeVin, normalizeVinList, hs, hl, hcond]
  · simp [normalizeVin, normalizeVinList, hs, hl, hcond]

/-- Witness for the amended C5 at the counterexample input. -/
theorem normalizeVin_loose_condition_witness :
    scanPattern true none (jsToUpper ("NO:ABCDE12345".data)) = none ∧
      scanPattern false none (jsToUpper ("NO:ABCDE12345".data)) =
        some ⟨2, 1, "ABCDE12345".data⟩ ∧
      normalizeVin "NO:ABCDE12345" =
        (if 3 ≤ 2 + 1 then (⟨cleanupVin ("ABCDE12345".data)⟩ : String)
         else ⟨cleanupVin (jsToUpper ("NO:ABCDE12345".data))⟩) :=
  ⟨by decide, by decide,
    normalizeVin_loose_condition "NO:ABCDE12345" ⟨2, 1, "ABCDE12345".data⟩
      (by decide) (by decide)⟩

/-! ## The quality gate -/

/-- Claim C6: for every target and every metric valuation (hence for every
image), the retake flag holds exactly when the issue list is non-empty, and
the issue list is exactly the applicable issues -- none dropped -- in the
fixed order brightness (dark / overexposed, mutually exclusive), contrast,
sharpness, framing. -/
theorem qualityGate_issues (t : Target) (b c s f : ℚ) :
    (shouldRetake t b c s f = true ↔ qualityIssues t b c s f ≠ []) ∧
      qualityIssues t b c s f =
        (if b < (TARGET_THRESHOLDS t).brightnessMin then ["Image too dark"] else [])
          ++ (if ¬ b < (TARGET_THRESHOLDS t).brightnessMin ∧
                  (TARGET_THRESHOLDS t).brightnessMax < b then
                ["Image overexposed"] else [])
          ++ (if c < (TARGET_THRESHOLDS t).contrastMin then ["Low contrast"] else [])
          ++ (if s < (TARGET_THRESHOLDS t).sharpnessMin then ["Image appears blurry"] else [])
          ++ (if f < (TARGET_THRESHOLDS t).framingScoreMin then [framingMsg t] else []) := by
  constructor
  · rw [shouldRetake]
    simp [List.length_pos]
  · rw [qualityIssues]
    split_ifs <;> simp_all

/-- Claim C7: the thresholds are the literal per-target table, the dark and
overexposed issues are mutually exclusive, and post-crop brightness 50 is
dark for the odometer target but not for the vin target. -/
theorem qualityGate_thresholds (t : Target) (b c s f : ℚ) :
    TARGET_THRESHOLDS Target.vin = ⟨45, 215, 22, 13, 6⟩ ∧
      TARGET_THRESHOLDS Target.odometer = ⟨55, 205, 26, 15, 5⟩ ∧
      ¬ ("Image too dark" ∈ qualityIssues t b c s f ∧
          "Image overexposed" ∈ qualityIssues t b c s f) ∧
      "Image too dark" ∉ qualityIssues Target.vin 50 c s f ∧
      "Image too dark" ∈ qualityIssues Target.odometer 50 c s f := by
  refine ⟨rfl, rfl, ?_, ?_, ?_⟩
  · rw [qualityIssues]
    split_ifs <;> simp +decide [framingMsg] <;> split_ifs <;> simp +decide
  · rw [qualityIssues]
    have h50 : ¬ ((50 : ℚ) < (TARGET_THRESHOLDS Target.vin).brightnessMin) := by
      rw [TARGET_THRESHOLDS]
      norm_num
    rw [if_neg h50]
    split_ifs <;> simp +decide [framingMsg]
  · rw [qualityIssues]
    have h50 : (50 : ℚ) < (TARGET_THRESHOLDS Target.odometer).brightnessMin := by
      rw [TARGET_THRESHOLDS]
      norm_num
    rw [if_pos h50]
    simp

/-- Claim C8: degenerate crop geometry (computed crop width or height at most
0) makes cropCanvas return the source image unchanged, full-frame bounds and
applied = false; the guard is a total fallback, not an error path. -/
theorem cropCanvas_degenerate (source : Canvas) (marginRatio : ℚ)
    (h : (source.width : Int) - jsRound (qMulNat source.width marginRatio) * 2 ≤ 0 ∨
        (source.height : Int) - jsRound (qMulNat source.height marginRatio) * 2 ≤ 0) :
    cropCanvas source marginRatio =
      ⟨source, ⟨0, 0, source.width, source.height⟩, false⟩ := by
  rw [cropCanvas]
  split_ifs with h1
  · rfl
  · exact if_pos h

/-- Witness for C8: a 1-by-1 canvas with margin ratio 1/2 yields computed crop
width -1. -/
theorem cropCanvas_degenerate_witness :
    (((1 : Nat) : Int) - jsRound (qMulNat 1 (mkRat 1 2)) * 2 ≤ 0 ∨
        ((1 : Nat) : Int) - jsRound (qMulNat 1 (mkRat 1 2)) * 2 ≤ 0) ∧
      cropCanvas ⟨1, 1, [0, 0, 0, 0]⟩ (mkRat 1 2) =
        ⟨⟨1, 1, [0, 0, 0, 0]⟩, ⟨0, 0, 1, 1⟩, false⟩ :=
  ⟨by decide, cropCanvas_degenerate ⟨1, 1, [0, 0, 0, 0]⟩ (mkRat 1 2) (by decide)⟩

/-! ## Metrics are non-negative -/

theorem lumAtData_nonneg (data : List Nat) (width x y : Nat) :
    0 ≤ lumAtData data width x y := by
  rw [lumAtData]
  positivity

theorem listMean_nonneg (l : List ℚ) (n : Nat) (h : ∀ q ∈ l, 0 ≤ q) :
    0 ≤ l.sum / (n : ℚ) := by
  apply div_nonneg (List.sum_nonneg h)
  positivity

/-- Claim C9: brightness, contrast and sharpness of computeMetrics and
brightness and contrast of computeRegionStats are non-negative for every
input buffer, including empty and degenerate ones. -/
theorem metrics_nonneg (d : ImageDataM) (data : List Nat) (w h : Nat)
    (x0R x1R y0R y1R : ℚ) :
    0 ≤ brightnessOf d ∧ 0 ≤ contrastOf d ∧ 0 ≤ sharpnessOf d ∧
      0 ≤ regionBrightness data w h x0R x1R y0R y1R ∧
      0 ≤ regionContrast data w h x0R x1R y0R y1R := by
  refine ⟨?_, ?_, ?_, ?_, ?_⟩
  · rw [brightnessOf]
    split_ifs
    · exact le_refl 0
    · apply listMean_nonneg
      intro q hq
      obtain ⟨p, -, rfl⟩ := List.mem_map.mp hq
      exact lumAtData_nonneg _ _ _ _
  · rw [contrastOf]
    split_ifs
    · exact Real.sqrt_nonneg _
    · exact le_refl 0
  · rw [sharpnessOf]
    split_ifs
    · exact le_refl 0
    · apply listMean_nonneg
      intro q hq
      rw [gradientTerms] at hq
      obtain ⟨p, -, hmem⟩ := List.mem_flatMap.mp hq
      rcases List.mem_append.mp hmem with hm | hm
      · split_ifs at hm
        · rw [List.mem_singleton] at hm
          rw [hm]
          exact abs_nonneg _
        · simp at hm
      · split_ifs at hm
        · rw [List.mem_singleton] at hm
          rw [hm]
          exact abs_nonneg _
        · simp at hm
  · rw [regionBrightness]
    split_ifs
    · exact le_refl 0
    · apply listMean_nonneg
      intro q hq
      rw [regionLums] at hq
      obtain ⟨p, -, rfl⟩ := List.mem_map.mp hq
      exact lumAtData_nonneg _ _ _ _
  · rw [regionContrast]
    split_ifs
    · exact Real.sqrt_nonneg _
    · exact le_refl 0

end WbIntake
